import Mathlib

/-!
Verification of the TicTacToe server (src/server.py, src/database.py).

The Python code is shallowly embedded:
* `Board` mirrors `server.Board`: an 18-bit integer, 9 bits per player,
  with all bitwise operations translated literally (`&&&`, `|||`, `<<<`, `>>>`).
* `DB` mirrors the SQLite store as in-memory lists of `Player`/`Game` rows;
  the `SQLiteDatabase` queries become list lookups and autoincrement ids
  become `length + 1`.
* `Server` operations return `Except PyExc _`: the `.error` constructor marks
  a Python exception escaping the method uncaught (only `ValueError` is ever
  caught by the handlers in `game_state`/`make_turn`); `.ok` carries the
  tagged JSON-style response `Resp` together with the possibly-updated store.
-/

namespace TTT

/-- Row of the `players` table (database.Player). -/
structure Player where
  id : Nat
  name : String
  score : Nat
  hash : String
deriving Repr, DecidableEq

/-- Row of the `games` table (database.Game). -/
structure Game where
  id : Nat
  player_1 : Nat
  player_2 : Nat
  turn : Nat
  board : Nat
deriving Repr, DecidableEq

/-- In-memory model of the SQLite store: the two tables, rows in insertion
order (rows are never deleted, so autoincrement ids are `length + 1`). -/
structure DB where
  players : List Player
  games : List Game
deriving Repr, DecidableEq

def DB.empty : DB := ⟨[], []⟩

/-- Embeds `SQLiteDatabase.player_by_name`: first row with the given name. -/
def DB.player_by_name (db : DB) (name : String) : Option Player :=
  db.players.find? (fun p => p.name == name)

/-- Embeds `SQLiteDatabase.player_by_id`: first row with the given id. -/
def DB.player_by_id (db : DB) (player_id : Nat) : Option Player :=
  db.players.find? (fun p => p.id == player_id)

/-- Embeds `SQLiteDatabase.game_by_id`: first row with the given id. -/
def DB.game_by_id (db : DB) (game_id : Nat) : Option Game :=
  db.games.find? (fun g => g.id == game_id)

/-- Embeds `SQLiteDatabase.register_player`: insert a row with score 0; the primary
key autoincrements. -/
def DB.register_player (db : DB) (name pw_hash : String) : DB :=
  { db with players := db.players ++ [⟨db.players.length + 1, name, 0, pw_hash⟩] }

/-- Embeds `SQLiteDatabase.add_game`: look up both players by name and insert a game
with `turn = p1.id`, `board = 0`; returns the new game id.  `none` models the
`AttributeError` Python would raise if a name were absent (`.first().id` on
`None`). -/
def DB.add_game (db : DB) (player_1_name player_2_name : String) :
    Option (DB × Nat) := do
  let p1 ← db.player_by_name player_1_name
  let p2 ← db.player_by_name player_2_name
  let gid := db.games.length + 1
  some ({ db with games := db.games ++ [⟨gid, p1.id, p2.id, p1.id, 0⟩] }, gid)

/-- Embeds `SQLiteDatabase.highscore`, which sorts by score descending (`ORDER BY score
DESC LIMIT n`); insertion order is kept between equal scores. -/
def insertByScoreDesc (p : Player) : List Player → List Player
  | [] => [p]
  | q :: rest =>
      if p.score ≤ q.score then q :: insertByScoreDesc p rest
      else p :: q :: rest

def sortByScoreDesc : List Player → List Player
  | [] => []
  | p :: rest => insertByScoreDesc p (sortByScoreDesc rest)

def DB.highscore (db : DB) (max_entries : Nat) : List Player :=
  (sortByScoreDesc db.players).take max_entries

/-- Embeds `server.Board`: the 18-bit packed board.  `b` is the raw integer. -/
structure Board where
  b : Nat
deriving Repr, DecidableEq

/-- Low 9 bits: the marks of player 1. -/
def Board.b1 (bd : Board) : Nat := bd.b &&& 0x1FF

/-- Next 9 bits: the marks of player 2. -/
def Board.b2 (bd : Board) : Nat := (bd.b >>> 9) &&& 0x1FF

/-- Embeds `Board.__init__`: stores the integer, then raises
`ValueError("fields set more than once")` if the two planes overlap. -/
def Board.init (marks : Nat) : Except String Board :=
  let bd : Board := ⟨marks⟩
  if bd.b1 &&& bd.b2 > 0 then Except.error "fields set more than once"
  else Except.ok bd

/-- Embeds `Board._WIN_PATTERNS`: three rows, three columns, two diagonals. -/
def Board.WIN_PATTERNS : List Nat :=
  [0b000000111, 0b000111000, 0b111000000,
   0b001001001, 0b010010010, 0b100100100,
   0b100010001, 0b001010100]

/-- The loop body of `Board.is_player_win`: `win |= ((marks & p) == p)`
folded over the eight patterns. -/
def winMarks (marks : Nat) : Bool :=
  Board.WIN_PATTERNS.foldl (fun win pattern => win || (marks &&& pattern == pattern)) false

/-- Embeds `Board.is_player_win`: `ValueError` on a player number other than 1/2. -/
def Board.is_player_win (bd : Board) (player_num : Nat) : Except String Bool :=
  if player_num = 1 then Except.ok (winMarks bd.b1)
  else if player_num = 2 then Except.ok (winMarks bd.b2)
  else Except.error "invalid player number"

/-- Embeds `Board.is_win`: calls `is_player_win` with 1 and 2 (never raising). -/
def Board.is_win (bd : Board) : Bool :=
  winMarks bd.b1 || winMarks bd.b2

/-- Embeds `Board.is_full`: counts the 18 low bits of `b` and compares with 9. -/
def Board.is_full (bd : Board) : Bool :=
  ((List.range 18).foldl (fun count shift => count + ((bd.b >>> shift) &&& 0x1)) 0) == 9

/-- Embeds `Board.is_finished`. -/
def Board.is_finished (bd : Board) : Bool :=
  bd.is_full || bd.is_win

/-- Embeds `bool((marks >> pos) & 0x1)`. -/
def markedAt (marks pos : Nat) : Bool :=
  ((marks >>> pos) &&& 0x1) != 0

/-- Embeds `Board.is_set_player`: `ValueError` on an invalid player number. -/
def Board.is_set_player (bd : Board) (pos player_num : Nat) : Except String Bool :=
  if player_num = 1 then Except.ok (markedAt bd.b1 pos)
  else if player_num = 2 then Except.ok (markedAt bd.b2 pos)
  else Except.error "invalid player number"

/-- Embeds `Board.is_set`: set by either player (calls `is_set_player` with 1, 2). -/
def Board.is_set (bd : Board) (pos : Nat) : Bool :=
  markedAt bd.b1 pos || markedAt bd.b2 pos

/-- Embeds `Board.set_field`: pick `(marks, other_marks, shift, other_shift)` by
player number (ValueError otherwise), reject an occupied position, else
rebuild `b` as `(marks | 1 << pos) << shift | other_marks << other_shift`.
There is no range check on `pos`. -/
def Board.set_field (bd : Board) (pos player_num : Nat) : Except String Board :=
  match (if player_num = 1 then some (bd.b1, bd.b2, 0, 9)
         else if player_num = 2 then some (bd.b2, bd.b1, 9, 0)
         else none) with
  | none => Except.error "invalid player number"
  | some (marks, other_marks, shift, other_shift) =>
      if bd.is_set pos then Except.error "field has already been set"
      else Except.ok ⟨((marks ||| (1 <<< pos)) <<< shift) ||| (other_marks <<< other_shift)⟩

/-- Embeds `Board.free_fields`: ascending indices in 0..8 unset by both players. -/
def Board.free_fields (bd : Board) : List Nat :=
  (List.range 9).filter (fun i => ((bd.b1 ||| bd.b2) >>> i) &&& 0x1 == 0)

/-- The tagged JSON result produced by `Server` methods
(`{"status": ..., ...}`). -/
inductive Resp where
  | ok : Resp
  | okGameId (game_id : Nat) : Resp
  | okState (turn : String) (board : Nat) : Resp
  | okScores (scores : List (String × Nat)) : Resp
  | error (why : String) : Resp
deriving Repr, DecidableEq

/-- A Python exception escaping a `Server` method uncaught. -/
inductive PyExc where
  | attributeError (msg : String)
  | valueError (msg : String)
deriving Repr, DecidableEq

deriving instance DecidableEq for Except

/-- Outcome of `Server._auth_player_and_game`: success, a `ValueError`
carrying an error response (caught by the public methods), or the
`AttributeError` raised by `game.player_1` when `game_by_id` returned
`None` (never caught). -/
inductive AuthResult where
  | ok (player : Player) (game : Game)
  | valueError (resp : Resp)
  | attributeError
deriving Repr, DecidableEq

namespace Server

/-- Embeds `Server._auth_player_and_game`. -/
def auth_player_and_game (db : DB) (name pw_hash : String) (game_id : Nat) :
    AuthResult :=
  match db.player_by_name name with
  | none => .valueError (.error ("player " ++ name ++ " cannot be authenticated"))
  | some player =>
    if player.hash ≠ pw_hash then
      .valueError (.error ("player " ++ name ++ " cannot be authenticated"))
    else
      match db.game_by_id game_id with
      | none => .attributeError
      | some game =>
        if ¬ (player.id = game.player_1 ∨ player.id = game.player_2) then
          .valueError (.error "no such game")
        else
          .ok player game

/-- Embeds `Server.register_player`. -/
def register_player (db : DB) (name pw_hash : String) : DB × Resp :=
  if (db.player_by_name name).isSome then
    (db, .error ("player " ++ name ++ " already exists"))
  else
    (db.register_player name pw_hash, .ok)

/-- Embeds `Server.create_game`. -/
def create_game (db : DB) (player_1_name pw_hash player_2_name : String) :
    Except PyExc (DB × Resp) :=
  match db.player_by_name player_1_name with
  | none => .ok (db, .error ("player " ++ player_1_name ++ " cannot be authenticated"))
  | some player =>
    if player.hash ≠ pw_hash then
      .ok (db, .error ("player " ++ player_1_name ++ " cannot be authenticated"))
    else if player_1_name = player_2_name then
      .ok (db, .error "please play against someone else")
    else if (db.player_by_name player_2_name).isNone then
      .ok (db, .error ("player " ++ player_2_name ++ " does not exist"))
    else
      match db.add_game player_1_name player_2_name with
      | none => .error (.attributeError "NoneType has no attribute id")
      | some (db2, game_id) => .ok (db2, .okGameId game_id)

/-- Embeds `Server.highscore_list`. -/
def highscore_list (db : DB) (max_entries : Nat) : Resp :=
  .okScores ((db.highscore max_entries).map (fun p => (p.name, p.score)))

/-- Embeds `Server.game_state`.  Read-only: no commit happens, so only the response
is returned.  The `AttributeError` from `turn_player.name` when
`player_by_id` finds nothing is uncaught. -/
def game_state (db : DB) (name pw_hash : String) (game_id : Nat) :
    Except PyExc Resp :=
  match auth_player_and_game db name pw_hash game_id with
  | .valueError resp => .ok resp
  | .attributeError => .error (.attributeError "NoneType has no attribute player_1")
  | .ok _ game =>
    match db.player_by_id game.turn with
    | none => .error (.attributeError "NoneType has no attribute name")
    | some turn_player => .ok (.okState turn_player.name game.board)

/-- Embeds `Server.make_turn`.  Mutation of the ORM rows followed by `commit` is
modelled by rebuilding the two tables; every early `return` leaves the
store untouched.  `Board(game.board)` sits outside any `try`, so an invalid
stored board is an uncaught `ValueError`. -/
def make_turn (db : DB) (name pw_hash : String) (pos game_id : Nat) :
    Except PyExc (DB × Resp) :=
  match auth_player_and_game db name pw_hash game_id with
  | .valueError resp => .ok (db, resp)
  | .attributeError => .error (.attributeError "NoneType has no attribute player_1")
  | .ok player game =>
    if player.id ≠ game.turn then .ok (db, .error "not your turn")
    else
      let pn : Nat × Nat :=
        if player.id = game.player_1 then (1, game.player_2) else (2, game.player_1)
      match Board.init game.board with
      | .error msg => .error (.valueError msg)
      | .ok board =>
        if board.is_finished then .ok (db, .error "game finished")
        else
          match board.set_field pos pn.1 with
          | .error msg => .ok (db, .error msg)
          | .ok board2 =>
            match board2.is_player_win pn.1 with
            | .error msg => .error (.valueError msg)
            | .ok win =>
              let player2 : Player :=
                if win then { player with score := player.score + 1 } else player
              let game2 : Game := { game with board := board2.b, turn := pn.2 }
              let db2 : DB :=
                { players := db.players.map (fun p => if p.id = player.id then player2 else p),
                  games := db.games.map (fun g => if g.id = game.id then game2 else g) }
              .ok (db2, .ok)

end Server

/-! ## Bit-counting infrastructure -/

theorem or_eq_add_of_and_eq_zero (a b : Nat) (h : a &&& b = 0) : a ||| b = a + b := by
  induction a using Nat.strong_induction_on generalizing b with
  | _ a ih =>
    rcases Nat.eq_zero_or_pos a with ha | ha
    · subst ha; simp
    · have hd : a / 2 &&& b / 2 = 0 := by rw [← Nat.and_div_two, h]
      have ih2 : a / 2 ||| b / 2 = a / 2 + b / 2 :=
        ih (a / 2) (Nat.div_lt_self ha (by omega)) (b / 2) hd
      have hor2 : (a ||| b) / 2 = a / 2 + b / 2 := by rw [Nat.or_div_two, ih2]
      have hm : ¬ (a % 2 = 1 ∧ b % 2 = 1) := by
        intro hc
        have h1 : (a &&& b) % 2 = 1 := Nat.and_mod_two_eq_one.mpr hc
        rw [h] at h1
        omega
      have hmor : (a ||| b) % 2 = 1 ↔ a % 2 = 1 ∨ b % 2 = 1 := Nat.or_mod_two_eq_one
      have e1 := Nat.div_add_mod (a ||| b) 2
      have e2 := Nat.div_add_mod a 2
      have e3 := Nat.div_add_mod b 2
      omega

/-- Number of set bits. -/
def popcount (n : Nat) : Nat :=
  if h : n = 0 then 0 else n % 2 + popcount (n / 2)
decreasing_by exact Nat.div_lt_self (by omega) (by omega)

theorem popcount_div2 (n : Nat) : popcount n = n % 2 + popcount (n / 2) := by
  by_cases h : n = 0
  · subst h; rw [popcount]; simp
  · rw [popcount]; simp [h]

theorem popcount_add_two_pow (pos : Nat) :
    ∀ b : Nat, b.testBit pos = false → popcount (b + 2 ^ pos) = popcount b + 1 := by
  induction pos with
  | zero =>
    intro b hb
    have hb2 : b % 2 = 0 := Nat.mod_two_eq_zero_iff_testBit_zero.mpr hb
    rw [popcount_div2 (b + 2 ^ 0), popcount_div2 b]
    have h1 : (b + 2 ^ 0) % 2 = 1 := by simp; omega
    have h2 : (b + 2 ^ 0) / 2 = b / 2 := by simp; omega
    rw [h1, h2]
    omega
  | succ pos ih =>
    intro b hb
    have hb2 : (b / 2).testBit pos = false := by
      rw [← Nat.testBit_add_one]; exact hb
    have hp : 2 ^ (pos + 1) = 2 * 2 ^ pos := by ring
    rw [popcount_div2 (b + 2 ^ (pos + 1)), popcount_div2 b]
    have h1 : (b + 2 ^ (pos + 1)) % 2 = b % 2 := by omega
    have h2 : (b + 2 ^ (pos + 1)) / 2 = b / 2 + 2 ^ pos := by omega
    rw [h1, h2, ih (b / 2) hb2]
    omega

/-- Running sums computed by the loop in `Board.is_full`. -/
def bitsum (k b : Nat) : Nat :=
  match k with
  | 0 => 0
  | k + 1 => bitsum k b + ((b >>> k) &&& 0x1)

theorem foldl_count_eq_bitsum (k b acc : Nat) :
    (List.range k).foldl (fun count shift => count + ((b >>> shift) &&& 0x1)) acc =
      acc + bitsum k b := by
  induction k generalizing acc with
  | zero => simp [bitsum]
  | succ k ih =>
    rw [List.range_succ, List.foldl_append, ih]
    simp [bitsum]
    omega

theorem bitsum_eq_popcount_mod (k b : Nat) : bitsum k b = popcount (b % 2 ^ k) := by
  induction k with
  | zero =>
    show (0 : Nat) = popcount (b % 2 ^ 0)
    rw [Nat.pow_zero, Nat.mod_one, popcount]
    rfl
  | succ k ih =>
    have hsplit : b % 2 ^ (k + 1) = b % 2 ^ k + 2 ^ k * (b / 2 ^ k % 2) := by
      have : (2 : Nat) ^ (k + 1) = 2 ^ k * 2 := by ring
      rw [this, Nat.mod_mul]
    have hbit : (b >>> k) &&& 0x1 = b / 2 ^ k % 2 := by
      rw [Nat.shiftRight_eq_div_pow, Nat.and_one_is_mod]
    rcases Nat.mod_two_eq_zero_or_one (b / 2 ^ k) with h2 | h2
    · rw [bitsum, ih, hsplit, h2, hbit, h2]
      rw [Nat.mul_zero, Nat.add_zero, Nat.add_zero]
    · have htb : (b % 2 ^ k).testBit k = false :=
        Nat.testBit_lt_two_pow (Nat.mod_lt _ (Nat.pos_pow_of_pos k (by omega)))
      rw [bitsum, ih, hsplit, h2, hbit, h2]
      rw [Nat.mul_one, popcount_add_two_pow k _ htb]

theorem bitsum_eq_popcount (k b : Nat) (h : b < 2 ^ k) : bitsum k b = popcount b := by
  rw [bitsum_eq_popcount_mod, Nat.mod_eq_of_lt h]


/-! ## Board characterization lemmas -/

theorem markedAt_eq_testBit (m pos : Nat) : markedAt m pos = m.testBit pos := by
  unfold markedAt
  rw [Nat.shiftRight_eq_div_pow, Nat.and_one_is_mod, Nat.testBit_to_div_mod]
  rcases Nat.mod_two_eq_zero_or_one (m / 2 ^ pos) with h | h <;> simp [h]

theorem b1_eq_mod (bd : Board) : bd.b1 = bd.b % 512 := by
  have h : (0x1FF : Nat) = 2 ^ 9 - 1 := by norm_num
  rw [Board.b1, h, Nat.and_pow_two_sub_one_eq_mod]

theorem b2_eq_div (bd : Board) (h : bd.b < 2 ^ 18) : bd.b2 = bd.b / 512 := by
  have h1 : (0x1FF : Nat) = 2 ^ 9 - 1 := by norm_num
  rw [Board.b2, h1, Nat.and_pow_two_sub_one_eq_mod, Nat.shiftRight_eq_div_pow]
  have h2 : bd.b < 262144 := lt_of_lt_of_le h (by norm_num)
  have e : (2 : Nat) ^ 9 = 512 := by norm_num
  rw [e]
  omega

theorem b1_lt (bd : Board) : bd.b1 < 512 := by
  have := Nat.and_le_right (n := bd.b) (m := 0x1FF)
  rw [Board.b1]
  omega

theorem b2_lt (bd : Board) : bd.b2 < 512 := by
  have := Nat.and_le_right (n := bd.b >>> 9) (m := 0x1FF)
  rw [Board.b2]
  omega

theorem is_set_false_iff (bd : Board) (pos : Nat) :
    bd.is_set pos = false ↔ bd.b1.testBit pos = false ∧ bd.b2.testBit pos = false := by
  rw [Board.is_set, markedAt_eq_testBit, markedAt_eq_testBit]
  simp

theorem testBit_b1 (bd : Board) (pos : Nat) (h : pos < 9) :
    bd.b1.testBit pos = bd.b.testBit pos := by
  rw [b1_eq_mod]
  have h512 : (512 : Nat) = 2 ^ 9 := by norm_num
  rw [h512, Nat.testBit_mod_two_pow]
  simp [h]

theorem testBit_b2 (bd : Board) (pos : Nat) (hlt : bd.b < 2 ^ 18) :
    bd.b2.testBit pos = bd.b.testBit (9 + pos) := by
  rw [b2_eq_div bd hlt]
  have h512 : bd.b / 512 = bd.b >>> 9 := by
    rw [Nat.shiftRight_eq_div_pow]
  rw [h512, Nat.testBit_shiftRight]

theorem two_pow_lt_512 {pos : Nat} (h : pos ≤ 8) : 2 ^ pos < 512 := by
  calc 2 ^ pos ≤ 2 ^ 8 := Nat.pow_le_pow_right (by omega) h
  _ < 512 := by norm_num

/-- Player 1 case of the `set_field` success path: the new packed integer
is the old one plus the single bit `pos`, which was clear before. -/
theorem set_field_spec1 (bd : Board) (pos : Nat) (hpos : pos ≤ 8)
    (hlt : bd.b < 2 ^ 18) (hns : bd.is_set pos = false) :
    bd.set_field pos 1 = Except.ok ⟨bd.b + 2 ^ pos⟩ ∧ bd.b.testBit pos = false := by
  obtain ⟨h1, h2⟩ := (is_set_false_iff bd pos).mp hns
  have hb1lt : bd.b1 < 512 := b1_lt bd
  have hb2lt : bd.b2 < 512 := b2_lt bd
  have hd : bd.b = 512 * bd.b2 + bd.b1 := by
    rw [b1_eq_mod, b2_eq_div bd hlt]
    omega
  have h512 : (512 : Nat) = 2 ^ 9 := by norm_num
  have hbit : bd.b.testBit pos = false := by
    rw [← testBit_b1 bd pos (by omega)]
    exact h1
  refine ⟨?_, hbit⟩
  have hstep : bd.set_field pos 1 =
      Except.ok ⟨((bd.b1 ||| (1 <<< pos)) <<< 0) ||| (bd.b2 <<< 9)⟩ := by
    simp [Board.set_field, hns]
  rw [hstep]
  simp only [Except.ok.injEq, Board.mk.injEq]
  rw [Nat.shiftLeft_zero, Nat.one_shiftLeft, Nat.shiftLeft_eq]
  have hor1 : bd.b1 ||| 2 ^ pos = bd.b1 + 2 ^ pos := by
    apply or_eq_add_of_and_eq_zero
    rw [Nat.and_two_pow, h1]
    simp
  have hlow : bd.b1 + 2 ^ pos < 512 := by
    have := Nat.or_lt_two_pow (n := 9) (by omega : bd.b1 < 2 ^ 9)
      (by rw [← h512]; exact two_pow_lt_512 hpos)
    rw [hor1] at this
    omega
  have hor2 : (bd.b1 + 2 ^ pos) ||| bd.b2 * 2 ^ 9 =
      2 ^ 9 * bd.b2 + (bd.b1 + 2 ^ pos) := by
    rw [Nat.or_comm, Nat.mul_comm bd.b2 (2 ^ 9)]
    exact (Nat.mul_add_lt_is_or (by omega) bd.b2).symm
  rw [hor1, hor2, ← h512]
  omega

/-- Player 2 case of the `set_field` success path: the new packed integer
is the old one plus the single bit `pos + 9`, which was clear before. -/
theorem set_field_spec2 (bd : Board) (pos : Nat) (hpos : pos ≤ 8)
    (hlt : bd.b < 2 ^ 18) (hns : bd.is_set pos = false) :
    bd.set_field pos 2 = Except.ok ⟨bd.b + 2 ^ (pos + 9)⟩ ∧
    bd.b.testBit (pos + 9) = false := by
  obtain ⟨h1, h2⟩ := (is_set_false_iff bd pos).mp hns
  have hb1lt : bd.b1 < 512 := b1_lt bd
  have hb2lt : bd.b2 < 512 := b2_lt bd
  have hd : bd.b = 512 * bd.b2 + bd.b1 := by
    rw [b1_eq_mod, b2_eq_div bd hlt]
    omega
  have h512 : (512 : Nat) = 2 ^ 9 := by norm_num
  have hbit : bd.b.testBit (pos + 9) = false := by
    have := testBit_b2 bd pos hlt
    have hc : 9 + pos = pos + 9 := by omega
    rw [hc] at this
    rw [← this]
    exact h2
  refine ⟨?_, hbit⟩
  have hstep : bd.set_field pos 2 =
      Except.ok ⟨((bd.b2 ||| (1 <<< pos)) <<< 9) ||| (bd.b1 <<< 0)⟩ := by
    simp [Board.set_field, hns]
  rw [hstep]
  simp only [Except.ok.injEq, Board.mk.injEq]
  rw [Nat.shiftLeft_zero, Nat.one_shiftLeft, Nat.shiftLeft_eq]
  have hor1 : bd.b2 ||| 2 ^ pos = bd.b2 + 2 ^ pos := by
    apply or_eq_add_of_and_eq_zero
    rw [Nat.and_two_pow, h2]
    simp
  have hlow : bd.b2 + 2 ^ pos < 512 := by
    have := Nat.or_lt_two_pow (n := 9) (by omega : bd.b2 < 2 ^ 9)
      (by rw [← h512]; exact two_pow_lt_512 hpos)
    rw [hor1] at this
    omega
  have hor2 : (bd.b2 + 2 ^ pos) * 2 ^ 9 ||| bd.b1 =
      2 ^ 9 * (bd.b2 + 2 ^ pos) + bd.b1 := by
    rw [Nat.mul_comm (bd.b2 + 2 ^ pos) (2 ^ 9)]
    exact (Nat.mul_add_lt_is_or (by omega) (bd.b2 + 2 ^ pos)).symm
  have hpow : (2 : Nat) ^ (pos + 9) = 2 ^ pos * 512 := by
    rw [pow_add]
    norm_num
  rw [hor1, hor2, hpow, ← h512]
  omega

/-- On an 18-bit board, a successful `set_field` at a position in 0..8 adds
exactly the bit `pos` (player 1) or `pos + 9` (player 2), and that bit was
clear before. -/
theorem set_field_spec (bd : Board) (pos p : Nat) (hpos : pos ≤ 8) (hp : p = 1 ∨ p = 2)
    (hlt : bd.b < 2 ^ 18) (hns : bd.is_set pos = false) :
    bd.set_field pos p =
      Except.ok ⟨bd.b + 2 ^ (pos + (if p = 1 then 0 else 9))⟩ ∧
    bd.b.testBit (pos + (if p = 1 then 0 else 9)) = false := by
  rcases hp with hp | hp <;> subst hp
  · have h0 : pos + (if (1 : Nat) = 1 then (0 : Nat) else 9) = pos := by norm_num
    rw [h0]
    exact set_field_spec1 bd pos hpos hlt hns
  · have h9 : pos + (if (2 : Nat) = 1 then (0 : Nat) else 9) = pos + 9 := by norm_num
    rw [h9]
    exact set_field_spec2 bd pos hpos hlt hns

theorem is_full_iff (bd : Board) (hlt : bd.b < 2 ^ 18) :
    bd.is_full = (popcount bd.b == 9) := by
  rw [Board.is_full, foldl_count_eq_bitsum, Nat.zero_add, bitsum_eq_popcount 18 bd.b hlt]

theorem set_field_occupied (bd : Board) (pos p : Nat) (hp : p = 1 ∨ p = 2)
    (hs : bd.is_set pos = true) :
    bd.set_field pos p = Except.error "field has already been set" := by
  rcases hp with hp | hp <;> subst hp <;> simp [Board.set_field, hs]

theorem set_field_ok_not_set (bd bd2 : Board) (pos p : Nat)
    (h : bd.set_field pos p = Except.ok bd2) : bd.is_set pos = false := by
  cases hs : bd.is_set pos
  · rfl
  · rw [Board.set_field] at h
    by_cases h1 : p = 1
    · simp [h1, hs] at h
    · by_cases h2 : p = 2
      · simp [h1, h2, hs] at h
      · simp [h1, h2] at h

theorem is_set_high (bd : Board) (pos : Nat) (h9 : 9 ≤ pos) : bd.is_set pos = false := by
  rw [is_set_false_iff]
  have h512 : (512 : Nat) ≤ 2 ^ pos := by
    calc (512 : Nat) = 2 ^ 9 := by norm_num
    _ ≤ 2 ^ pos := Nat.pow_le_pow_right (by omega) h9
  constructor <;> apply Nat.testBit_lt_two_pow
  · have := b1_lt bd
    omega
  · have := b2_lt bd
    omega

/-- A successful in-range `set_field` on a valid 18-bit board keeps the two
planes disjoint, stays below `2 ^ 18`, and adds exactly one set bit. -/
theorem set_field_planes (bd : Board) (pos p : Nat) (hpos : pos ≤ 8) (hp : p = 1 ∨ p = 2)
    (hlt : bd.b < 2 ^ 18) (hdisj : bd.b1 &&& bd.b2 = 0) (hns : bd.is_set pos = false) :
    ∃ bd2 : Board, bd.set_field pos p = Except.ok bd2 ∧
      bd2.b < 2 ^ 18 ∧ bd2.b1 &&& bd2.b2 = 0 ∧ popcount bd2.b = popcount bd.b + 1 := by
  obtain ⟨h1, h2⟩ := (is_set_false_iff bd pos).mp hns
  have hb1lt : bd.b1 < 512 := b1_lt bd
  have hb2lt : bd.b2 < 512 := b2_lt bd
  have hd : bd.b = 512 * bd.b2 + bd.b1 := by
    rw [b1_eq_mod, b2_eq_div bd hlt]
    omega
  have hp512 : 2 ^ pos < 512 := two_pow_lt_512 hpos
  rcases hp with hp | hp <;> subst hp
  · obtain ⟨heq, hbit⟩ := set_field_spec1 bd pos hpos hlt hns
    have hor : bd.b + 2 ^ pos = bd.b ||| 2 ^ pos := by
      rw [or_eq_add_of_and_eq_zero _ _ (by rw [Nat.and_two_pow, hbit]; simp)]
    have hklt : (2 : Nat) ^ pos < 2 ^ 18 :=
      Nat.pow_lt_pow_right (by omega) (by omega)
    have hlt2 : bd.b + 2 ^ pos < 2 ^ 18 := by
      rw [hor]
      exact Nat.or_lt_two_pow hlt hklt
    have hlow : bd.b1 + 2 ^ pos < 512 := by
      have := Nat.or_lt_two_pow (n := 9) (by omega : bd.b1 < 2 ^ 9)
        (by omega : 2 ^ pos < 2 ^ 9)
      rw [or_eq_add_of_and_eq_zero _ _ (by rw [Nat.and_two_pow, h1]; simp)] at this
      omega
    refine ⟨⟨bd.b + 2 ^ pos⟩, heq, hlt2, ?_, ?_⟩
    · have hsplit : bd.b + 2 ^ pos = 512 * bd.b2 + (bd.b1 + 2 ^ pos) := by omega
      have e1 : (⟨bd.b + 2 ^ pos⟩ : Board).b1 = bd.b1 + 2 ^ pos := by
        rw [b1_eq_mod]
        show (bd.b + 2 ^ pos) % 512 = bd.b1 + 2 ^ pos
        rw [hsplit, Nat.mul_add_mod, Nat.mod_eq_of_lt hlow]
      have e2 : (⟨bd.b + 2 ^ pos⟩ : Board).b2 = bd.b2 := by
        rw [b2_eq_div _ hlt2]
        show (bd.b + 2 ^ pos) / 512 = bd.b2
        rw [hsplit, Nat.mul_add_div (by omega), Nat.div_eq_of_lt hlow, Nat.add_zero]
      rw [e1, e2,
        ← or_eq_add_of_and_eq_zero _ _ (by rw [Nat.and_two_pow, h1]; simp),
        Nat.and_distrib_right, hdisj, Nat.two_pow_and, h2]
      simp
    · exact popcount_add_two_pow pos bd.b hbit
  · obtain ⟨heq, hbit⟩ := set_field_spec2 bd pos hpos hlt hns
    have hor : bd.b + 2 ^ (pos + 9) = bd.b ||| 2 ^ (pos + 9) := by
      rw [or_eq_add_of_and_eq_zero _ _ (by rw [Nat.and_two_pow, hbit]; simp)]
    have hklt : (2 : Nat) ^ (pos + 9) < 2 ^ 18 :=
      Nat.pow_lt_pow_right (by omega) (by omega)
    have hlt2 : bd.b + 2 ^ (pos + 9) < 2 ^ 18 := by
      rw [hor]
      exact Nat.or_lt_two_pow hlt hklt
    have hhigh : bd.b2 + 2 ^ pos < 512 := by
      have := Nat.or_lt_two_pow (n := 9) (by omega : bd.b2 < 2 ^ 9)
        (by omega : 2 ^ pos < 2 ^ 9)
      rw [or_eq_add_of_and_eq_zero _ _ (by rw [Nat.and_two_pow, h2]; simp)] at this
      omega
    have hpow : (2 : Nat) ^ (pos + 9) = 2 ^ pos * 512 := by
      rw [pow_add]
      norm_num
    refine ⟨⟨bd.b + 2 ^ (pos + 9)⟩, heq, hlt2, ?_, ?_⟩
    · have hsplit : bd.b + 2 ^ (pos + 9) = 512 * (bd.b2 + 2 ^ pos) + bd.b1 := by
        rw [hpow]
        omega
      have e1 : (⟨bd.b + 2 ^ (pos + 9)⟩ : Board).b1 = bd.b1 := by
        rw [b1_eq_mod]
        show (bd.b + 2 ^ (pos + 9)) % 512 = bd.b1
        rw [hsplit, Nat.mul_add_mod, Nat.mod_eq_of_lt hb1lt]
      have e2 : (⟨bd.b + 2 ^ (pos + 9)⟩ : Board).b2 = bd.b2 + 2 ^ pos := by
        rw [b2_eq_div _ hlt2]
        show (bd.b + 2 ^ (pos + 9)) / 512 = bd.b2 + 2 ^ pos
        rw [hsplit, Nat.mul_add_div (by omega), Nat.div_eq_of_lt hb1lt, Nat.add_zero]
      rw [e1, e2,
        ← or_eq_add_of_and_eq_zero _ _ (by rw [Nat.and_two_pow, h2]; simp),
        Nat.and_or_distrib_left, hdisj, Nat.and_two_pow, h1]
      simp
    · exact popcount_add_two_pow (pos + 9) bd.b hbit

/-! ## Claim C5: winning-pattern characterisation -/

theorem winMarks_iff (marks : Nat) :
    winMarks marks = true ↔ ∃ pat ∈ Board.WIN_PATTERNS, marks &&& pat = pat := by
  rw [winMarks, Board.WIN_PATTERNS]
  simp only [List.foldl_cons, List.foldl_nil, Bool.false_or, Bool.or_eq_true,
    beq_iff_eq, List.mem_cons, List.not_mem_nil, or_false, exists_eq_or_imp,
    exists_eq_left]
  tauto

/-- C5: for a valid board and player `p ∈ {1, 2}`, `is_player_win` answers
true exactly when the 9-bit mask of player `p` contains one of the eight
winning patterns (`Board.WIN_PATTERNS` lists them: three rows, three
columns, two diagonals). -/
theorem C5_is_player_win_iff (bd : Board) (p : Nat) (hp : p = 1 ∨ p = 2)
    (hv : bd.b1 &&& bd.b2 = 0) :
    bd.is_player_win p = Except.ok true ↔
      ∃ pat ∈ Board.WIN_PATTERNS, (if p = 1 then bd.b1 else bd.b2) &&& pat = pat := by
  rcases hp with hp | hp <;> subst hp
  · rw [Board.is_player_win, if_pos rfl, if_pos rfl]
    rw [show (Except.ok (winMarks bd.b1) = (Except.ok true : Except String Bool)) ↔
        (winMarks bd.b1 = true) by simp]
    exact winMarks_iff bd.b1
  · rw [Board.is_player_win, if_neg (by omega), if_pos rfl, if_neg (by omega)]
    rw [show (Except.ok (winMarks bd.b2) = (Except.ok true : Except String Bool)) ↔
        (winMarks bd.b2 = true) by simp]
    exact winMarks_iff bd.b2

/-- Witness for C5 at the concrete board 7: player 1 holds the 0-1-2 row. -/
theorem C5_witness : (Board.mk 7).is_player_win 1 = Except.ok true :=
  (C5_is_player_win_iff ⟨7⟩ 1 (Or.inl rfl) (by decide)).mpr ⟨7, by decide, by decide⟩

/-! ## Claim C7: setMark behaviour -/

/-- C7: on a valid 18-bit board with `pos ∈ [0,8]` and `p ∈ {1,2}`,
`set_field` fails with the occupied-cell `ValueError` when the position is
taken (the board value is untouched: the mutation sits after the check),
and otherwise succeeds with a new raw integer differing from the old in
exactly the one bit `pos` (player 1) or `pos + 9` (player 2) — a bit of
the acting player plane. -/
theorem C7_set_field_correct (bd : Board) (pos p : Nat) (hpos : pos ≤ 8)
    (hp : p = 1 ∨ p = 2) (hlt : bd.b < 2 ^ 18) (hdisj : bd.b1 &&& bd.b2 = 0) :
    (bd.is_set pos = true → bd.set_field pos p = Except.error "field has already been set") ∧
    (bd.is_set pos = false → ∃ bd2, bd.set_field pos p = Except.ok bd2 ∧
      bd2.b = bd.b ||| 2 ^ (pos + (if p = 1 then 0 else 9)) ∧
      bd.b.testBit (pos + (if p = 1 then 0 else 9)) = false ∧
      bd2.b.testBit (pos + (if p = 1 then 0 else 9)) = true ∧
      (∀ i, i ≠ pos + (if p = 1 then 0 else 9) → bd2.b.testBit i = bd.b.testBit i)) := by
  constructor
  · intro hs
    exact set_field_occupied bd pos p hp hs
  · intro hns
    obtain ⟨heq, hbit⟩ := set_field_spec bd pos p hpos hp hlt hns
    have hor : bd.b + 2 ^ (pos + (if p = 1 then 0 else 9)) =
        bd.b ||| 2 ^ (pos + (if p = 1 then 0 else 9)) := by
      rw [or_eq_add_of_and_eq_zero _ _ (by rw [Nat.and_two_pow, hbit]; simp)]
    refine ⟨⟨bd.b + 2 ^ (pos + (if p = 1 then 0 else 9))⟩, heq, hor, hbit, ?_, ?_⟩
    · show (bd.b + 2 ^ (pos + (if p = 1 then 0 else 9))).testBit _ = true
      rw [hor]
      simp [Nat.testBit_or, Nat.testBit_two_pow]
    · intro i hi
      show (bd.b + 2 ^ (pos + (if p = 1 then 0 else 9))).testBit i = bd.b.testBit i
      rw [hor]
      simp [Nat.testBit_or, Nat.testBit_two_pow_of_ne (Ne.symm hi)]

/-- Witness for C7 on board 3 (player 1 owns cells 0 and 1), position 2. -/
theorem C7_witness :
    ((Board.mk 3).is_set 2 = true →
      (Board.mk 3).set_field 2 1 = Except.error "field has already been set") ∧
    ((Board.mk 3).is_set 2 = false → ∃ bd2, (Board.mk 3).set_field 2 1 = Except.ok bd2 ∧
      bd2.b = (Board.mk 3).b ||| 2 ^ (2 + (if 1 = 1 then 0 else 9)) ∧
      (Board.mk 3).b.testBit (2 + (if 1 = 1 then 0 else 9)) = false ∧
      bd2.b.testBit (2 + (if 1 = 1 then 0 else 9)) = true ∧
      (∀ i, i ≠ 2 + (if 1 = 1 then 0 else 9) →
        bd2.b.testBit i = (Board.mk 3).b.testBit i)) :=
  C7_set_field_correct ⟨3⟩ 2 1 (by omega) (Or.inl rfl) (by norm_num) (by decide)

/-! ## Claim C8: BoardState construction -/

/-- C8: for every 18-bit integer, construction succeeds exactly when the
two 9-bit groups are disjoint, and fails with the InvalidState
`ValueError` otherwise. -/
theorem C8_init_iff (m : Nat) (hm : m < 2 ^ 18) :
    ((∃ bd, Board.init m = Except.ok bd) ↔
      (m &&& 0x1FF) &&& ((m >>> 9) &&& 0x1FF) = 0) ∧
    ((m &&& 0x1FF) &&& ((m >>> 9) &&& 0x1FF) ≠ 0 →
      Board.init m = Except.error "fields set more than once") := by
  have hcond : ((Board.mk m).b1 &&& (Board.mk m).b2) =
      (m &&& 0x1FF) &&& ((m >>> 9) &&& 0x1FF) := rfl
  by_cases h0 : (m &&& 0x1FF) &&& ((m >>> 9) &&& 0x1FF) = 0
  · refine ⟨⟨fun _ => h0, fun _ => ⟨⟨m⟩, ?_⟩⟩, fun hne => absurd h0 hne⟩
    rw [Board.init]
    simp only [hcond, h0]
    norm_num
  · constructor
    · constructor
      · intro ⟨bd, hbd⟩
        rw [Board.init] at hbd
        simp only [hcond] at hbd
        rw [if_pos (by omega)] at hbd
        exact absurd hbd (by simp)
      · intro h
        exact absurd h h0
    · intro _
      rw [Board.init]
      simp only [hcond]
      rw [if_pos (by omega)]

/-- Witness for C8 at 0 (the empty board). -/
theorem C8_witness :
    ((∃ bd, Board.init 0 = Except.ok bd) ↔
      ((0 : Nat) &&& 0x1FF) &&& (((0 : Nat) >>> 9) &&& 0x1FF) = 0) ∧
    (((0 : Nat) &&& 0x1FF) &&& (((0 : Nat) >>> 9) &&& 0x1FF) ≠ 0 →
      Board.init 0 = Except.error "fields set more than once") :=
  C8_init_iff 0 (by norm_num)

/-! ## Claim C9: no range check in set_field -/

/-- C9: positions from 9 up are reported free by `is_set` whatever the
board, so `set_field` accepts them; for player 1 a position in 9..17 lands
in the half of the packed integer belonging to player 2, visible through
`b2`. -/
theorem C9_no_range_check (bd : Board) (pos : Nat) (h9 : 9 ≤ pos) :
    bd.is_set pos = false ∧
    (∀ p, p = 1 ∨ p = 2 → ∃ bd2, bd.set_field pos p = Except.ok bd2) ∧
    (pos ≤ 17 → ∃ bd2, bd.set_field pos 1 = Except.ok bd2 ∧
      bd2.b2.testBit (pos - 9) = true) := by
  have hns := is_set_high bd pos h9
  have hok1 : bd.set_field pos 1 =
      Except.ok ⟨((bd.b1 ||| (1 <<< pos)) <<< 0) ||| (bd.b2 <<< 9)⟩ := by
    simp [Board.set_field, hns]
  refine ⟨hns, ?_, ?_⟩
  · intro p hp
    rcases hp with hp | hp <;> subst hp
    · exact ⟨_, hok1⟩
    · refine ⟨⟨((bd.b2 ||| (1 <<< pos)) <<< 9) ||| (bd.b1 <<< 0)⟩, ?_⟩
      simp [Board.set_field, hns]
  · intro h17
    refine ⟨_, hok1, ?_⟩
    have hb : (⟨((bd.b1 ||| (1 <<< pos)) <<< 0) ||| (bd.b2 <<< 9)⟩ : Board).b2 =
        (((bd.b1 ||| (1 <<< pos)) <<< 0) ||| (bd.b2 <<< 9)) >>> 9 &&& 0x1FF := rfl
    rw [hb]
    have h1ff : (0x1FF : Nat) = 2 ^ 9 - 1 := by norm_num
    rw [h1ff, Nat.and_pow_two_sub_one_eq_mod, Nat.testBit_mod_two_pow,
      Nat.testBit_shiftRight]
    have hsum : 9 + (pos - 9) = pos := by omega
    rw [hsum]
    have hbt : (((bd.b1 ||| (1 <<< pos)) <<< 0) ||| (bd.b2 <<< 9)).testBit pos = true := by
      rw [Nat.shiftLeft_zero, Nat.one_shiftLeft]
      simp [Nat.testBit_or, Nat.testBit_two_pow]
    rw [hbt]
    simp
    omega

/-- Witness for C9 at board 0, position 10: the move is accepted and the
stray bit reads back in the plane of player 2. -/
theorem C9_witness :
    (Board.mk 0).is_set 10 = false ∧
    (∀ p, p = 1 ∨ p = 2 → ∃ bd2, (Board.mk 0).set_field 10 p = Except.ok bd2) ∧
    (10 ≤ 17 → ∃ bd2, (Board.mk 0).set_field 10 1 = Except.ok bd2 ∧
      bd2.b2.testBit (10 - 9) = true) :=
  C9_no_range_check ⟨0⟩ 10 (by omega)

/-! ## Server-level helper lemmas -/

theorem auth_ok (db : DB) (name pw : String) (gid : Nat) (player : Player) (game : Game)
    (hp : db.player_by_name name = some player)
    (hh : player.hash = pw)
    (hg : db.game_by_id gid = some game)
    (hpart : player.id = game.player_1 ∨ player.id = game.player_2) :
    Server.auth_player_and_game db name pw gid = AuthResult.ok player game := by
  unfold Server.auth_player_and_game
  rw [hp]
  simp only [hh, hg]
  rw [if_neg (by simp), if_neg (not_not_intro hpart)]

theorem auth_ok_inv {db : DB} {name pw : String} {gid : Nat} {player : Player}
    {game : Game}
    (h : Server.auth_player_and_game db name pw gid = AuthResult.ok player game) :
    db.player_by_name name = some player ∧ player.hash = pw ∧
    db.game_by_id gid = some game ∧
    (player.id = game.player_1 ∨ player.id = game.player_2) := by
  unfold Server.auth_player_and_game at h
  cases hp : db.player_by_name name with
  | none => rw [hp] at h; simp at h
  | some q =>
    rw [hp] at h
    by_cases hh : q.hash = pw
    · cases hg : db.game_by_id gid with
      | none =>
        simp only [hh, hg, ne_eq, not_true_eq_false, if_false] at h
        simp at h
      | some g =>
        by_cases hpart : q.id = g.player_1 ∨ q.id = g.player_2
        · simp only [hh, hg, ne_eq, not_true_eq_false, if_false] at h
          rw [if_neg (not_not_intro hpart)] at h
          simp only [AuthResult.ok.injEq] at h
          obtain ⟨hq, hgg⟩ := h
          subst hq
          subst hgg
          exact ⟨rfl, hh, rfl, hpart⟩
        · simp only [hh, hg, ne_eq, not_true_eq_false, if_false] at h
          rw [if_pos hpart] at h
          simp at h
    · simp only [ne_eq, hh, not_false_eq_true, if_true] at h
      simp at h

/-- Looking a row up by key after updating exactly the rows that carry the
key of the row previously found. -/
theorem find?_map_update {α : Type} (key : α → Nat) (l : List α) (k : Nat) (a a2 : α)
    (hfind : l.find? (fun x => key x == k) = some a)
    (hkey : key a2 = key a) :
    (l.map (fun x => if key x = key a then a2 else x)).find? (fun x => key x == k) =
      some a2 := by
  have hak : key a = k := by simpa using List.find?_some hfind
  induction l with
  | nil => simp at hfind
  | cons x rest ih =>
    simp only [List.find?_cons] at hfind
    simp only [List.map_cons, List.find?_cons]
    cases hkx : key x == k with
    | true =>
      rw [hkx] at hfind
      have hxa : x = a := by injection hfind
      subst hxa
      rw [if_pos rfl]
      have hk2 : (key a2 == k) = true := by
        simp only [beq_iff_eq]
        omega
      rw [hk2]
    | false =>
      rw [hkx] at hfind
      have hne : ¬ key x = key a := by
        intro hc
        rw [hc, hak] at hkx
        simp at hkx
      rw [if_neg hne, hkx]
      exact ih hfind

/-! ## Claim C10: game_state ignores finished status -/

/-- C10: `game_state` never consults `is_finished`: an authenticated
participant of a stored match whose board is finished still gets a success
response carrying the name of the player stored in `turn` and the raw
board integer.  The embedding returns no store because the Python method
performs no writes and no commit, so persisted state is untouched by
construction. -/
theorem C10_game_state_no_finished_check (db : DB) (name pw : String) (gid : Nat)
    (player turn_player : Player) (game : Game)
    (hp : db.player_by_name name = some player)
    (hh : player.hash = pw)
    (hg : db.game_by_id gid = some game)
    (hpart : player.id = game.player_1 ∨ player.id = game.player_2)
    (hfin : (Board.mk game.board).is_finished = true)
    (htp : db.player_by_id game.turn = some turn_player) :
    Server.game_state db name pw gid =
      Except.ok (Resp.okState turn_player.name game.board) := by
  rw [Server.game_state, auth_ok db name pw gid player game hp hh hg hpart]
  simp only [htp]

/-- Witness for C10: alice queries a finished match (she owns the 0-1-2 row
on board 196615). -/
theorem C10_witness :
    Server.game_state ⟨[⟨1, "alice", 0, "aaaa1111"⟩, ⟨2, "bob", 0, "bbbb2222"⟩],
        [⟨1, 1, 2, 1, 196615⟩]⟩ "alice" "aaaa1111" 1 =
      Except.ok (Resp.okState "alice" 196615) :=
  C10_game_state_no_finished_check _ "alice" "aaaa1111" 1
    ⟨1, "alice", 0, "aaaa1111"⟩ ⟨1, "alice", 0, "aaaa1111"⟩ ⟨1, 1, 2, 1, 196615⟩
    rfl rfl rfl (Or.inl rfl) rfl rfl

/-! ## Claim C1: missing match crashes instead of failing cleanly -/

/-- C1 (code bug): with player "alice" registered and no match stored,
both `game_state` and `make_turn` evaluate `game.player_1` on the Python
`None` returned by `game_by_id` and raise an uncaught `AttributeError`
instead of returning the tagged `{status: "error"}` result — the
`except ValueError` handlers do not catch it, so the exception escapes
the engine boundary. -/
theorem C1_missing_match_crashes :
    Server.game_state ⟨[⟨1, "alice", 0, "aaaa1111"⟩], []⟩ "alice" "aaaa1111" 1 =
      Except.error (PyExc.attributeError "NoneType has no attribute player_1") ∧
    Server.make_turn ⟨[⟨1, "alice", 0, "aaaa1111"⟩], []⟩ "alice" "aaaa1111" 0 1 =
      Except.error (PyExc.attributeError "NoneType has no attribute player_1") :=
  ⟨rfl, rfl⟩

/-! ## Claim C3: finished match rejects moves -/

/-- C3 counterexample: on a finished match (board 196615, alice has won,
`turn` still points at alice), a move by the other authenticated
participant bob is rejected as "not your turn" — not with the
match-finished reason — because `make_turn` checks the turn first.  The
store is returned unchanged either way. -/
theorem C3_counterexample :
    Server.make_turn ⟨[⟨1, "alice", 0, "aaaa1111"⟩, ⟨2, "bob", 0, "bbbb2222"⟩],
        [⟨1, 1, 2, 1, 196615⟩]⟩ "bob" "bbbb2222" 3 1 =
      Except.ok (⟨[⟨1, "alice", 0, "aaaa1111"⟩, ⟨2, "bob", 0, "bbbb2222"⟩],
        [⟨1, 1, 2, 1, 196615⟩]⟩, Resp.error "not your turn") ∧
    Resp.error "not your turn" ≠ Resp.error "game finished" :=
  ⟨rfl, by decide⟩

/-- C3 (amended): a move on a finished match submitted by the
authenticated participant whose id equals the stored `turn` fails with the
"game finished" reason ("match finished" in the spec vocabulary), and the
store — board, turn and all scores — is returned unchanged. -/
theorem C3_finished_move_rejected (db : DB) (name pw : String) (pos gid : Nat)
    (player : Player) (game : Game) (bd : Board)
    (hp : db.player_by_name name = some player)
    (hh : player.hash = pw)
    (hg : db.game_by_id gid = some game)
    (hpart : player.id = game.player_1 ∨ player.id = game.player_2)
    (hturn : player.id = game.turn)
    (hbd : Board.init game.board = Except.ok bd)
    (hfin : bd.is_finished = true) :
    Server.make_turn db name pw pos gid = Except.ok (db, Resp.error "game finished") := by
  rw [Server.make_turn, auth_ok db name pw gid player game hp hh hg hpart]
  simp only [hturn, ne_eq, not_true_eq_false, if_false, hbd, hfin, if_true]

/-- Witness for C3: alice (whose turn it is) tries position 3 on the
finished board 196615. -/
theorem C3_witness :
    Server.make_turn ⟨[⟨1, "alice", 0, "aaaa1111"⟩, ⟨2, "bob", 0, "bbbb2222"⟩],
        [⟨1, 1, 2, 1, 196615⟩]⟩ "alice" "aaaa1111" 3 1 =
      Except.ok (⟨[⟨1, "alice", 0, "aaaa1111"⟩, ⟨2, "bob", 0, "bbbb2222"⟩],
        [⟨1, 1, 2, 1, 196615⟩]⟩, Resp.error "game finished") :=
  C3_finished_move_rejected _ "alice" "aaaa1111" 3 1
    ⟨1, "alice", 0, "aaaa1111"⟩ ⟨1, 1, 2, 1, 196615⟩ ⟨196615⟩
    rfl rfl rfl (Or.inl rfl) rfl rfl rfl

/-! ## Claim C2: accepted moves -/

/-- C2: an accepted move (caller authenticated, participant, holder of the
turn, board valid and not finished, position free) persists the new board,
hands the turn to the other participant, and increments the mover score by
exactly one iff the post-move board is an `is_player_win` for the mover;
every other player row is unchanged. -/
theorem C2_make_turn_accepted (db : DB) (name pw : String) (pos gid : Nat)
    (player : Player) (game : Game) (bd bd2 : Board)
    (hp : db.player_by_name name = some player)
    (hh : player.hash = pw)
    (hg : db.game_by_id gid = some game)
    (hpart : player.id = game.player_1 ∨ player.id = game.player_2)
    (hturn : player.id = game.turn)
    (hbd : Board.init game.board = Except.ok bd)
    (hfin : bd.is_finished = false)
    (hset : bd.set_field pos (if player.id = game.player_1 then 1 else 2) =
      Except.ok bd2) :
    ∃ db2, Server.make_turn db name pw pos gid = Except.ok (db2, Resp.ok) ∧
      db2.game_by_id gid = some { game with board := bd2.b, turn := if player.id = game.player_1 then game.player_2 else game.player_1 } ∧
      ((if bd2.is_player_win (if player.id = game.player_1 then 1 else 2) =
          Except.ok true
        then { player with score := player.score + 1 } else player) ∈ db2.players) ∧
      (∀ q ∈ db.players, q.id ≠ player.id → q ∈ db2.players) ∧
      db2.players.length = db.players.length := by
  have hmem : player ∈ db.players := List.mem_of_find?_eq_some hp
  by_cases h1 : player.id = game.player_1
  · rw [if_pos h1] at hset
    have h1t : game.turn = game.player_1 := by omega
    have hw : bd2.is_player_win 1 = Except.ok (winMarks bd2.b1) := by
      rw [Board.is_player_win, if_pos rfl]
    refine ⟨⟨db.players.map (fun p => if p.id = player.id then
        (if winMarks bd2.b1 then { player with score := player.score + 1 } else player)
        else p),
      db.games.map (fun g => if g.id = game.id then
        { game with board := bd2.b, turn := game.player_2 } else g)⟩,
      ?_, ?_, ?_, ?_, ?_⟩
    · rw [Server.make_turn, auth_ok db name pw gid player game hp hh hg hpart]
      simp [hturn, h1t, hbd, hfin, hset, hw]
    · rw [if_pos h1]
      exact find?_map_update Game.id db.games gid game _ hg rfl
    · rw [if_pos h1, hw]
      by_cases hwin : winMarks bd2.b1 = true
      · rw [if_pos (by rw [hwin])]
        refine List.mem_map.mpr ⟨player, hmem, ?_⟩
        simp [hwin]
      · rw [if_neg (by simp [hwin])]
        refine List.mem_map.mpr ⟨player, hmem, ?_⟩
        simp [hwin]
    · intro q hq hqid
      refine List.mem_map.mpr ⟨q, hq, ?_⟩
      simp [hqid]
    · simp
  · rw [if_neg h1] at hset
    have h1f : ¬ game.turn = game.player_1 := by omega
    have hw : bd2.is_player_win 2 = Except.ok (winMarks bd2.b2) := by
      rw [Board.is_player_win, if_neg (by omega), if_pos rfl]
    refine ⟨⟨db.players.map (fun p => if p.id = player.id then
        (if winMarks bd2.b2 then { player with score := player.score + 1 } else player)
        else p),
      db.games.map (fun g => if g.id = game.id then
        { game with board := bd2.b, turn := game.player_1 } else g)⟩,
      ?_, ?_, ?_, ?_, ?_⟩
    · rw [Server.make_turn, auth_ok db name pw gid player game hp hh hg hpart]
      simp [hturn, h1f, hbd, hfin, hset, hw]
    · rw [if_neg h1]
      exact find?_map_update Game.id db.games gid game _ hg rfl
    · rw [if_neg h1, hw]
      by_cases hwin : winMarks bd2.b2 = true
      · rw [if_pos (by rw [hwin])]
        refine List.mem_map.mpr ⟨player, hmem, ?_⟩
        simp [hwin]
      · rw [if_neg (by simp [hwin])]
        refine List.mem_map.mpr ⟨player, hmem, ?_⟩
        simp [hwin]
    · intro q hq hqid
      refine List.mem_map.mpr ⟨q, hq, ?_⟩
      simp [hqid]
    · simp

/-- Witness for C2: alice makes the first move at position 0 in a fresh
match; no win, so no score changes. -/
theorem C2_witness :
    ∃ db2, Server.make_turn ⟨[⟨1, "alice", 0, "aaaa1111"⟩, ⟨2, "bob", 0, "bbbb2222"⟩],
        [⟨1, 1, 2, 1, 0⟩]⟩ "alice" "aaaa1111" 0 1 = Except.ok (db2, Resp.ok) ∧
      db2.game_by_id 1 = some ⟨1, 1, 2, 2, 1⟩ ∧
      ((if (Board.mk 1).is_player_win 1 = Except.ok true
        then (⟨1, "alice", 1, "aaaa1111"⟩ : Player) else ⟨1, "alice", 0, "aaaa1111"⟩)
          ∈ db2.players) ∧
      (∀ q ∈ (⟨[⟨1, "alice", 0, "aaaa1111"⟩, ⟨2, "bob", 0, "bbbb2222"⟩],
        [⟨1, 1, 2, 1, 0⟩]⟩ : DB).players, q.id ≠ 1 → q ∈ db2.players) ∧
      db2.players.length = 2 :=
  C2_make_turn_accepted _ "alice" "aaaa1111" 0 1
    ⟨1, "alice", 0, "aaaa1111"⟩ ⟨1, 1, 2, 1, 0⟩ ⟨0⟩ ⟨1⟩
    rfl rfl rfl (Or.inl rfl) rfl rfl rfl rfl

/-! ## Claim C4: reachable-state invariants -/

theorem init_ok_inv {m : Nat} {bd : Board} (h : Board.init m = Except.ok bd) :
    bd = ⟨m⟩ ∧ (Board.mk m).b1 &&& (Board.mk m).b2 = 0 := by
  rw [Board.init] at h
  by_cases hc : (Board.mk m).b1 &&& (Board.mk m).b2 > 0
  · rw [if_pos hc] at h
    simp at h
  · rw [if_neg hc] at h
    simp only [Except.ok.injEq] at h
    exact ⟨h.symm, by omega⟩

/-- The invariants claimed for a stored match row: disjoint 9-bit planes,
at most nine marks, turn held by a participant (plus the 18-bit bound the
packing relies on). -/
def GameInv (g : Game) : Prop :=
  g.board < 2 ^ 18 ∧
  (Board.mk g.board).b1 &&& (Board.mk g.board).b2 = 0 ∧
  popcount g.board ≤ 9 ∧
  (g.turn = g.player_1 ∨ g.turn = g.player_2)

/-- Closure of a store under arbitrary `make_turn` calls whose positions
lie in 0..8. -/
inductive MoveReach : DB → DB → Prop where
  | refl (db : DB) : MoveReach db db
  | step {dba db db2 : DB} {name pw : String} {pos gid : Nat} {r : Resp} :
      MoveReach dba db → pos ≤ 8 →
      Server.make_turn db name pw pos gid = Except.ok (db2, r) →
      MoveReach dba db2

/-- The updated row written by an accepted move keeps `GameInv`. -/
theorem move_preserves_GameInv {game : Game} {board board2 : Board} {pos p : Nat}
    (hpos : pos ≤ 8) (hp : p = 1 ∨ p = 2)
    (hgi : GameInv game)
    (hbi : Board.init game.board = Except.ok board)
    (hfin : board.is_finished = false)
    (hsf : board.set_field pos p = Except.ok board2)
    (turn2 : Nat) (hturn2 : turn2 = game.player_1 ∨ turn2 = game.player_2) :
    GameInv { game with board := board2.b, turn := turn2 } := by
  obtain ⟨hlt, hdisj, hpc, -⟩ := hgi
  obtain ⟨hbd, -⟩ := init_ok_inv hbi
  subst hbd
  have hns : (⟨game.board⟩ : Board).is_set pos = false :=
    set_field_ok_not_set _ _ _ _ hsf
  obtain ⟨bd2x, heq, hlt2, hdisj2, hpcs⟩ :=
    set_field_planes ⟨game.board⟩ pos p hpos hp hlt hdisj hns
  rw [hsf] at heq
  have hbx : bd2x = board2 := (Except.ok.inj heq).symm
  subst hbx
  have hfull : (⟨game.board⟩ : Board).is_full = false := by
    rw [Board.is_finished] at hfin
    exact (Bool.or_eq_false_iff.mp hfin).1
  have hne9 : popcount game.board ≠ 9 := by
    rw [is_full_iff _ hlt] at hfull
    simpa using hfull
  have hpcs2 : popcount bd2x.b = popcount game.board + 1 := hpcs
  refine ⟨hlt2, hdisj2, ?_, hturn2⟩
  show popcount bd2x.b ≤ 9
  omega

/-- A `make_turn` call that returns normally (with any response) preserves
`GameInv` for every stored match, provided the position is in range. -/
theorem make_turn_preserves_inv {db db2 : DB} {name pw : String} {pos gid : Nat}
    {r : Resp} (hpos : pos ≤ 8)
    (hstep : Server.make_turn db name pw pos gid = Except.ok (db2, r))
    (hinv : ∀ g ∈ db.games, GameInv g) :
    ∀ g ∈ db2.games, GameInv g := by
  unfold Server.make_turn at hstep
  cases haux : Server.auth_player_and_game db name pw gid with
  | valueError resp =>
    rw [haux] at hstep
    simp only [Except.ok.injEq, Prod.mk.injEq] at hstep
    obtain ⟨hdb, -⟩ := hstep
    subst hdb
    exact hinv
  | attributeError =>
    rw [haux] at hstep
    simp at hstep
  | ok player game =>
    rw [haux] at hstep
    obtain ⟨-, -, hg, hpart⟩ := auth_ok_inv haux
    have hgmem : game ∈ db.games := List.mem_of_find?_eq_some hg
    by_cases hturn : player.id = game.turn
    · by_cases h1 : player.id = game.player_1
      · have h1t : game.turn = game.player_1 := by omega
        cases hbi : Board.init game.board with
        | error msg =>
          simp only [hturn, h1t, hbi, ne_eq, eq_self_iff_true, not_true_eq_false,
            if_false] at hstep
          simp at hstep
        | ok board =>
          by_cases hfin : board.is_finished = true
          · simp only [hturn, h1t, hbi, hfin, ne_eq, eq_self_iff_true,
              not_true_eq_false, if_false, if_true, Except.ok.injEq,
              Prod.mk.injEq] at hstep
            obtain ⟨hdb, -⟩ := hstep
            subst hdb
            exact hinv
          · have hfin2 : board.is_finished = false := by
              rw [Bool.not_eq_true] at hfin
              exact hfin
            simp only [hturn, h1t, hbi, hfin2, ne_eq, eq_self_iff_true,
              not_true_eq_false, Bool.false_eq_true, if_false, if_true] at hstep
            cases hsf : board.set_field pos 1 with
            | error msg =>
              rw [hsf] at hstep
              simp only [Except.ok.injEq, Prod.mk.injEq] at hstep
              obtain ⟨hdb, -⟩ := hstep
              subst hdb
              exact hinv
            | ok board2 =>
              rw [hsf] at hstep
              have hw : board2.is_player_win 1 = Except.ok (winMarks board2.b1) := by
                rw [Board.is_player_win, if_pos rfl]
              simp only [hw, Except.ok.injEq, Prod.mk.injEq] at hstep
              obtain ⟨hdb, -⟩ := hstep
              subst hdb
              intro g hgm
              rcases List.mem_map.mp hgm with ⟨g0, hg0, hif⟩
              by_cases hid : g0.id = game.id
              · rw [if_pos hid] at hif
                subst hif
                exact move_preserves_GameInv hpos (Or.inl rfl) (hinv game hgmem)
                  hbi hfin2 hsf game.player_2 (Or.inr rfl)
              · rw [if_neg hid] at hif
                subst hif
                exact hinv g0 hg0
      · have h1f : ¬ game.turn = game.player_1 := by omega
        cases hbi : Board.init game.board with
        | error msg =>
          simp only [hturn, h1f, hbi, ne_eq, eq_self_iff_true, not_true_eq_false,
            if_false] at hstep
          simp at hstep
        | ok board =>
          by_cases hfin : board.is_finished = true
          · simp only [hturn, h1f, hbi, hfin, ne_eq, eq_self_iff_true,
              not_true_eq_false, if_false, if_true, Except.ok.injEq,
              Prod.mk.injEq] at hstep
            obtain ⟨hdb, -⟩ := hstep
            subst hdb
            exact hinv
          · have hfin2 : board.is_finished = false := by
              rw [Bool.not_eq_true] at hfin
              exact hfin
            simp only [hturn, h1f, hbi, hfin2, ne_eq, eq_self_iff_true,
              not_true_eq_false, Bool.false_eq_true, if_false, if_true] at hstep
            cases hsf : board.set_field pos 2 with
            | error msg =>
              rw [hsf] at hstep
              simp only [Except.ok.injEq, Prod.mk.injEq] at hstep
              obtain ⟨hdb, -⟩ := hstep
              subst hdb
              exact hinv
            | ok board2 =>
              rw [hsf] at hstep
              have hw : board2.is_player_win 2 = Except.ok (winMarks board2.b2) := by
                rw [Board.is_player_win, if_neg (by omega), if_pos rfl]
              simp only [hw, Except.ok.injEq, Prod.mk.injEq] at hstep
              obtain ⟨hdb, -⟩ := hstep
              subst hdb
              intro g hgm
              rcases List.mem_map.mp hgm with ⟨g0, hg0, hif⟩
              by_cases hid : g0.id = game.id
              · rw [if_pos hid] at hif
                subst hif
                exact move_preserves_GameInv hpos (Or.inr rfl) (hinv game hgmem)
                  hbi hfin2 hsf game.player_1 (Or.inl rfl)
              · rw [if_neg hid] at hif
                subst hif
                exact hinv g0 hg0
    · simp only [hturn, ne_eq, not_false_eq_true, if_true, Except.ok.injEq,
        Prod.mk.injEq] at hstep
      obtain ⟨hdb, -⟩ := hstep
      subst hdb
      exact hinv

/-- C4: starting from a store whose matches already satisfy the invariants,
a match created by `add_game` (turn = player 1, board = 0) followed by any
sequence of `make_turn` calls with positions in 0..8 leaves every stored
match with disjoint 9-bit planes, at most nine set bits, and a turn equal
to one of its two participants. -/
theorem C4_reachable_invariants (db0 db1 db : DB) (n1 n2 : String) (gid : Nat)
    (h0 : ∀ g ∈ db0.games, GameInv g)
    (hadd : DB.add_game db0 n1 n2 = some (db1, gid))
    (hreach : MoveReach db1 db) :
    ∀ g ∈ db.games, GameInv g := by
  have h1 : ∀ g ∈ db1.games, GameInv g := by
    unfold DB.add_game at hadd
    cases hpa : db0.player_by_name n1 with
    | none => rw [hpa] at hadd; simp at hadd
    | some p1 =>
      rw [hpa] at hadd
      cases hpb : db0.player_by_name n2 with
      | none => rw [hpb] at hadd; simp at hadd
      | some p2 =>
        rw [hpb] at hadd
        simp at hadd
        obtain ⟨hdb1, -⟩ := hadd
        subst hdb1
        intro g hgm
        simp only [List.mem_append, List.mem_singleton] at hgm
        rcases hgm with hgm | hgm
        · exact h0 g hgm
        · subst hgm
          have hpz : popcount 0 = 0 := by
            rw [popcount]
            rfl
          refine ⟨by norm_num, ?_, ?_, Or.inl rfl⟩
          · show (Board.mk 0).b1 &&& (Board.mk 0).b2 = 0
            decide
          · show popcount 0 ≤ 9
            omega
  induction hreach with
  | refl => exact h1
  | step hr hpos hstep ih => exact make_turn_preserves_inv hpos hstep ih

/-- Witness for C4: create a match for alice and bob, let alice mark
position 2, and read the invariants off the stored match row. -/
theorem C4_witness : GameInv ⟨1, 1, 2, 2, 4⟩ :=
  C4_reachable_invariants
    ⟨[⟨1, "alice", 0, "aaaa1111"⟩, ⟨2, "bob", 0, "bbbb2222"⟩], []⟩
    ⟨[⟨1, "alice", 0, "aaaa1111"⟩, ⟨2, "bob", 0, "bbbb2222"⟩], [⟨1, 1, 2, 1, 0⟩]⟩
    ⟨[⟨1, "alice", 0, "aaaa1111"⟩, ⟨2, "bob", 0, "bbbb2222"⟩], [⟨1, 1, 2, 2, 4⟩]⟩
    "alice" "bob" 1
    (by intro g hg; simp at hg)
    rfl
    (MoveReach.step (MoveReach.refl _) (by omega)
      (show Server.make_turn ⟨[⟨1, "alice", 0, "aaaa1111"⟩, ⟨2, "bob", 0, "bbbb2222"⟩],
          [⟨1, 1, 2, 1, 0⟩]⟩ "alice" "aaaa1111" 2 1 =
        Except.ok (⟨[⟨1, "alice", 0, "aaaa1111"⟩, ⟨2, "bob", 0, "bbbb2222"⟩],
          [⟨1, 1, 2, 2, 4⟩]⟩, Resp.ok) from rfl))
    ⟨1, 1, 2, 2, 4⟩ (by simp)

/-! ## Claim C6: end-to-end scenario -/

/-- C6: registering alice and bob, creating their match (id 1, turn alice,
board 0), and playing alice@2, bob@4, alice@1, bob@0, alice@5, bob@8 ends
with bob holding the 0-4-8 diagonal (mask `0b100010001` inside his plane,
an `is_player_win`) and the leaderboard listing bob with score 1 before
alice with score 0. -/
theorem C6_end_to_end :
    Server.register_player DB.empty "alice" "aaaa1111" =
      (⟨[⟨1, "alice", 0, "aaaa1111"⟩], []⟩, Resp.ok) ∧
    Server.register_player ⟨[⟨1, "alice", 0, "aaaa1111"⟩], []⟩ "bob" "bbbb2222" =
      (⟨[⟨1, "alice", 0, "aaaa1111"⟩, ⟨2, "bob", 0, "bbbb2222"⟩], []⟩, Resp.ok) ∧
    Server.create_game ⟨[⟨1, "alice", 0, "aaaa1111"⟩, ⟨2, "bob", 0, "bbbb2222"⟩], []⟩
        "alice" "aaaa1111" "bob" =
      Except.ok (⟨[⟨1, "alice", 0, "aaaa1111"⟩, ⟨2, "bob", 0, "bbbb2222"⟩],
        [⟨1, 1, 2, 1, 0⟩]⟩, Resp.okGameId 1) ∧
    Server.game_state ⟨[⟨1, "alice", 0, "aaaa1111"⟩, ⟨2, "bob", 0, "bbbb2222"⟩],
        [⟨1, 1, 2, 1, 0⟩]⟩ "alice" "aaaa1111" 1 =
      Except.ok (Resp.okState "alice" 0) ∧
    Server.make_turn ⟨[⟨1, "alice", 0, "aaaa1111"⟩, ⟨2, "bob", 0, "bbbb2222"⟩],
        [⟨1, 1, 2, 1, 0⟩]⟩ "alice" "aaaa1111" 2 1 =
      Except.ok (⟨[⟨1, "alice", 0, "aaaa1111"⟩, ⟨2, "bob", 0, "bbbb2222"⟩],
        [⟨1, 1, 2, 2, 4⟩]⟩, Resp.ok) ∧
    Server.make_turn ⟨[⟨1, "alice", 0, "aaaa1111"⟩, ⟨2, "bob", 0, "bbbb2222"⟩],
        [⟨1, 1, 2, 2, 4⟩]⟩ "bob" "bbbb2222" 4 1 =
      Except.ok (⟨[⟨1, "alice", 0, "aaaa1111"⟩, ⟨2, "bob", 0, "bbbb2222"⟩],
        [⟨1, 1, 2, 1, 8196⟩]⟩, Resp.ok) ∧
    Server.make_turn ⟨[⟨1, "alice", 0, "aaaa1111"⟩, ⟨2, "bob", 0, "bbbb2222"⟩],
        [⟨1, 1, 2, 1, 8196⟩]⟩ "alice" "aaaa1111" 1 1 =
      Except.ok (⟨[⟨1, "alice", 0, "aaaa1111"⟩, ⟨2, "bob", 0, "bbbb2222"⟩],
        [⟨1, 1, 2, 2, 8198⟩]⟩, Resp.ok) ∧
    Server.make_turn ⟨[⟨1, "alice", 0, "aaaa1111"⟩, ⟨2, "bob", 0, "bbbb2222"⟩],
        [⟨1, 1, 2, 2, 8198⟩]⟩ "bob" "bbbb2222" 0 1 =
      Except.ok (⟨[⟨1, "alice", 0, "aaaa1111"⟩, ⟨2, "bob", 0, "bbbb2222"⟩],
        [⟨1, 1, 2, 1, 8710⟩]⟩, Resp.ok) ∧
    Server.make_turn ⟨[⟨1, "alice", 0, "aaaa1111"⟩, ⟨2, "bob", 0, "bbbb2222"⟩],
        [⟨1, 1, 2, 1, 8710⟩]⟩ "alice" "aaaa1111" 5 1 =
      Except.ok (⟨[⟨1, "alice", 0, "aaaa1111"⟩, ⟨2, "bob", 0, "bbbb2222"⟩],
        [⟨1, 1, 2, 2, 8742⟩]⟩, Resp.ok) ∧
    Server.make_turn ⟨[⟨1, "alice", 0, "aaaa1111"⟩, ⟨2, "bob", 0, "bbbb2222"⟩],
        [⟨1, 1, 2, 2, 8742⟩]⟩ "bob" "bbbb2222" 8 1 =
      Except.ok (⟨[⟨1, "alice", 0, "aaaa1111"⟩, ⟨2, "bob", 1, "bbbb2222"⟩],
        [⟨1, 1, 2, 1, 139814⟩]⟩, Resp.ok) ∧
    (Board.mk 139814).b2 = 0b100010001 ∧
    (Board.mk 139814).b2 &&& 0b100010001 = 0b100010001 ∧
    (Board.mk 139814).is_player_win 2 = Except.ok true ∧
    Server.highscore_list ⟨[⟨1, "alice", 0, "aaaa1111"⟩, ⟨2, "bob", 1, "bbbb2222"⟩],
        [⟨1, 1, 2, 1, 139814⟩]⟩ 10 =
      Resp.okScores [("bob", 1), ("alice", 0)] :=
  ⟨rfl, rfl, rfl, rfl, rfl, rfl, rfl, rfl, rfl, rfl, rfl, rfl, rfl, rfl⟩

end TTT
